import Mathlib

/-
Shallow embedding of `astrbot_network_error_plugin.py`: a resilience wrapper
around an outbound message-send action.  Pure Python functions become Lean
functions; the async handler becomes a deterministic interpreter over outcome
oracles (one outcome per external call, indexed by call number); the global
`last_sent_message_ids` dict becomes an association list with Python-dict
semantics; Python numbers become exact rationals.
-/

set_option autoImplicit false

namespace Astr

/-- Model of a Python `Exception` value as seen by the plugin: the two
`isinstance` facts it tests (`NetworkError`, `TypeError`) plus `str(error)`. -/
structure PyExc where
  isNetworkErrorClass : Bool
  isTypeErrorClass : Bool
  msg : String
deriving DecidableEq, Repr

/-- A raised signal: either a cancellation (`KeyboardInterrupt` /
`asyncio.CancelledError`, which are `BaseException`s that `except Exception`
does not catch) or an ordinary `Exception`. -/
inductive Err where
  | cancel : Err
  | exc : PyExc → Err
deriving DecidableEq, Repr

/-- ASCII lowercasing of one character, the effect of Python `str.lower` on
the ASCII range (all keywords tested by the plugin are ASCII). -/
def lowerChar (c : Char) : Char :=
  if 65 ≤ c.toNat ∧ c.toNat ≤ 90 then Char.ofNat (c.toNat + 32) else c

/-- Python `s.lower()` on the character list of a string. -/
def lowerList (s : List Char) : List Char := s.map lowerChar

/-- Does `hay` start with `needle`? -/
def seqLE : List Char → List Char → Bool
  | [], _ => true
  | _ :: _, [] => false
  | a :: as, b :: bs => a == b && seqLE as bs

/-- Python `needle in hay` on character lists: containment of a contiguous
subsequence. -/
def seqMem (needle : List Char) : List Char → Bool
  | [] => seqLE needle []
  | b :: bs => seqLE needle (b :: bs) || seqMem needle bs

/-- Python `needle in hay` on strings. -/
def strIn (needle hay : String) : Bool := seqMem needle.data hay.data

/-- Translation of `is_network_error` (source lines 30-48): `NetworkError`
instances, keyword matches on the lowercased message, and `TypeError`s whose
message mentions fetch-layer activity.  Total by construction, mirroring the
source predicate, which is pure and never raises. -/
def is_network_error (error : PyExc) : Bool :=
  if error.isNetworkErrorClass then true
  else
    let error_message : String := ⟨lowerList error.msg.data⟩
    if strIn "network" error_message || strIn "timeout" error_message ||
       strIn "connection reset" error_message || strIn "connection refused" error_message ||
       strIn "host unreachable" error_message || strIn "name or service not known" error_message then
      true
    else if error.isTypeErrorClass && (strIn "fetch" error_message || strIn "network request" error_message) then
      true
    else
      false

/-- Case-insensitive containment, written from the spec's words: the needle
occurs in the description when both are compared case-insensitively. -/
def containsCI (hay needle : String) : Bool :=
  seqMem (lowerList needle.data) (lowerList hay.data)

/-- Classifier written from the spec's words (spec 4.1 / claim C8), to be
compared with the source-derived `is_network_error`: a dedicated network-error
kind, or a case-insensitive keyword match, or a type-mismatch error whose
description mentions "fetch" or "network request". -/
def isTransientSpec (error : PyExc) : Bool :=
  error.isNetworkErrorClass ||
  (["network", "timeout", "connection reset", "connection refused",
    "host unreachable", "name or service not known"].any fun kw => containsCI error.msg kw) ||
  (error.isTypeErrorClass && (containsCI error.msg "fetch" || containsCI error.msg "network request"))

/-! ### Python values and configuration validation -/

/-- A Python value as it can appear in the config dict.  `pbool` is kept
distinct from `pint` because `isinstance(x, bool)` distinguishes them, while
`isinstance(x, int)` accepts both (`bool` subclasses `int`). -/
inductive PyVal where
  | pint : ℤ → PyVal
  | pbool : Bool → PyVal
  | pfloat : ℚ → PyVal
  | pstr : String → PyVal
  | pnone : PyVal
deriving DecidableEq, Repr

/-- Python `isinstance(v, int)` — true for ints and bools. -/
def pyIsInt : PyVal → Bool
  | .pint _ => true
  | .pbool _ => true
  | _ => false

/-- Python `isinstance(v, (int, float))`. -/
def pyIsNum : PyVal → Bool
  | .pint _ => true
  | .pbool _ => true
  | .pfloat _ => true
  | _ => false

/-- Python `isinstance(v, str)`. -/
def pyIsStr : PyVal → Bool
  | .pstr _ => true
  | _ => false

/-- Python `isinstance(v, bool)`. -/
def pyIsBool : PyVal → Bool
  | .pbool _ => true
  | _ => false

/-- Numeric value of a Python number (`True` counts as 1, `False` as 0). -/
def pyNum : PyVal → ℚ
  | .pint n => (n : ℚ)
  | .pbool b => if b then 1 else 0
  | .pfloat q => q
  | _ => 0

/-- Integer value of a Python int-like value. -/
def pyIntVal : PyVal → ℤ
  | .pint n => n
  | .pbool b => if b then 1 else 0
  | _ => 0

/-- String payload. -/
def pyStrVal : PyVal → String
  | .pstr s => s
  | _ => ""

/-- Bool payload. -/
def pyBoolVal : PyVal → Bool
  | .pbool b => b
  | _ => false

/-- The merged config dict: after `DEFAULT_CONFIG.copy()` plus `update`,
all six keys are always present. -/
structure RawConfig where
  retry_attempts : PyVal
  retry_delay_base : PyVal
  error_message : PyVal
  log_sensitive_info : PyVal
  recall_retry_attempts : PyVal
  recall_retry_delay_base : PyVal
deriving DecidableEq, Repr

/-- Translation of `DEFAULT_CONFIG` (source lines 16-23). -/
def DEFAULT_CONFIG : RawConfig :=
  { retry_attempts := .pint 3
    retry_delay_base := .pint 1000
    error_message := .pstr "抱歉，发生网络错误，消息已撤回。"
    log_sensitive_info := .pbool false
    recall_retry_attempts := .pint 2
    recall_retry_delay_base := .pint 500 }

/-- A user-supplied override dict: any subset of the six keys. -/
structure Overrides where
  retry_attempts : Option PyVal := none
  retry_delay_base : Option PyVal := none
  error_message : Option PyVal := none
  log_sensitive_info : Option PyVal := none
  recall_retry_attempts : Option PyVal := none
  recall_retry_delay_base : Option PyVal := none

/-- Merging: `current_config = DEFAULT_CONFIG.copy(); current_config.update(config)`
(source lines 112-114). -/
def mergeConfig (config : Overrides) : RawConfig :=
  { retry_attempts := config.retry_attempts.getD DEFAULT_CONFIG.retry_attempts
    retry_delay_base := config.retry_delay_base.getD DEFAULT_CONFIG.retry_delay_base
    error_message := config.error_message.getD DEFAULT_CONFIG.error_message
    log_sensitive_info := config.log_sensitive_info.getD DEFAULT_CONFIG.log_sensitive_info
    recall_retry_attempts := config.recall_retry_attempts.getD DEFAULT_CONFIG.recall_retry_attempts
    recall_retry_delay_base := config.recall_retry_delay_base.getD DEFAULT_CONFIG.recall_retry_delay_base }

/-- Translation of `validate_config` (source lines 50-63): the first violated
constraint raises `ValueError` (modelled as `Except.error` with the source's
message); short-circuit `or` means the `< 0` comparison only runs when the
`isinstance` check passed, as in Python. -/
def validate_config (config : RawConfig) : Except String Unit :=
  if ¬ pyIsInt config.retry_attempts = true ∨ pyNum config.retry_attempts < 0 then
    .error "retry_attempts 必须是非负整数。"
  else if ¬ pyIsNum config.retry_delay_base = true ∨ pyNum config.retry_delay_base ≤ 0 then
    .error "retry_delay_base 必须是正数（毫秒）。"
  else if ¬ pyIsStr config.error_message = true then
    .error "error_message 必须是字符串。"
  else if ¬ pyIsBool config.log_sensitive_info = true then
    .error "log_sensitive_info 必须是布尔值。"
  else if ¬ pyIsInt config.recall_retry_attempts = true ∨ pyNum config.recall_retry_attempts < 0 then
    .error "recall_retry_attempts 必须是非负整数。"
  else if ¬ pyIsNum config.recall_retry_delay_base = true ∨ pyNum config.recall_retry_delay_base ≤ 0 then
    .error "recall_retry_delay_base 必须是正数（毫秒）。"
  else
    .ok ()

/-- The validated policy knobs the returned handler closes over
(source lines 118-123). -/
structure Config where
  retry_attempts : Nat
  retry_delay_base : ℚ
  error_message : String
  log_sensitive_info : Bool
  recall_retry_attempts : Nat
  recall_retry_delay_base : ℚ
deriving DecidableEq, Repr

/-- Translation of `create_network_error_handler` up to the point where the
handler closure is built (source lines 97-123): merge the overrides into the
defaults, validate once, and extract the six knobs.  A validation failure
prevents the handler from being built (`Except.error`). -/
def create_network_error_handler (config : Overrides) : Except String Config :=
  let current_config := mergeConfig config
  match validate_config current_config with
  | .error e => .error e
  | .ok _ =>
    .ok { retry_attempts := (pyIntVal current_config.retry_attempts).toNat
          retry_delay_base := pyNum current_config.retry_delay_base
          error_message := pyStrVal current_config.error_message
          log_sensitive_info := pyBoolVal current_config.log_sensitive_info
          recall_retry_attempts := (pyIntVal current_config.recall_retry_attempts).toNat
          recall_retry_delay_base := pyNum current_config.recall_retry_delay_base }

/-! ### The last-sent registry: a Python dict with string keys and values -/

/-- The `last_sent_message_ids` dict: channel id → last message id. -/
abbrev Registry := List (String × String)

/-- Python `d.get(k)` — the value at the first (with `keysNodup`, only) entry for `k`. -/
def dictGet (d : Registry) (k : String) : Option String :=
  match d with
  | [] => none
  | (k', v) :: rest => if k' = k then some v else dictGet rest k

/-- Python `d[k] = v` — replace in place, or append a new entry. -/
def dictSet (d : Registry) (k v : String) : Registry :=
  match d with
  | [] => [(k, v)]
  | (k', v') :: rest => if k' = k then (k, v) :: rest else (k', v') :: dictSet rest k v

/-- Python `d.pop(k, None)` — remove every entry for `k` (with `keysNodup`, the one). -/
def dictPop (d : Registry) (k : String) : Registry :=
  match d with
  | [] => []
  | (k', v') :: rest => if k' = k then dictPop rest k else (k', v') :: dictPop rest k

/-- The structural invariant a Python dict always has: no duplicate keys. -/
def keysNodup (d : Registry) : Prop := (d.map Prod.fst).Nodup

/-- How many entries a channel has in the registry. -/
def keyCount (d : Registry) (c : String) : Nat := (d.filter fun p => p.1 == c).length

/-- Python truthiness of the snapshot `last_message_id_in_channel`:
`None` and the empty string are falsy. -/
def truthyOpt : Option String → Bool
  | none => false
  | some s => !(s == "")

/-! ### The guarded invocation, as an interpreter over outcome oracles

Each awaited external call is resolved by an oracle indexed by how many calls
of that kind the invocation has made so far.  Sleeps are recorded in the trace
(the exact value handed to `asyncio.sleep`, in seconds) and never raise; the
awaited network calls may raise, including a cancellation signal. -/

/-- Outcome of one `await next_action(event)`: a returned message id,
`None`, or a raised signal. -/
inductive NextResult where
  | ok : Option String → NextResult
  | raise : Err → NextResult
deriving DecidableEq, Repr

/-- Outcome of one `await send_message(...)`: `ok (some id)` for a truthy
response carrying `message_id`, `ok none` for a falsy response or one without
`message_id`, or a raised signal. -/
inductive SendResult where
  | ok : Option String → SendResult
  | raise : Err → SendResult
deriving DecidableEq, Repr

/-- The environment one invocation runs against: the `i`-th outcome of each
kind of external call.  `recalls i = none` means `recall_message` succeeded. -/
structure Env where
  nexts : Nat → NextResult
  recalls : Nat → Option Err
  sends : Nat → SendResult

/-- The astrbot event object, of which the handler reads `event.channel_id`. -/
structure Event where
  channel_id : String

/-- Observable result of `_recall_and_clear_message_id`: the registry it
leaves behind, the signal it re-raised (only cancellation can escape its
`except Exception`), the number of `recall_message` calls, and the values
handed to `asyncio.sleep` in order. -/
structure RecallOut where
  registry : Registry
  raised : Option Err
  calls : Nat
  sleeps : List ℚ
deriving DecidableEq, Repr

/-- The `for attempts in range(recall_retry_attempts + 1)` loop of
`_recall_and_clear_message_id` (source lines 73-88), entered once the
re-check passed.  `i` is Python's `attempts`; `fuel` is the number of loop
iterations left, `recall_retry_attempts + 1 - i` at every call. -/
def recallGo (channel_id : String) (recall_retry_attempts : Nat)
    (recall_retry_delay_base : ℚ) (recalls : Nat → Option Err)
    (reg : Registry) (i fuel : Nat) : RecallOut :=
  match fuel with
  | 0 => { registry := reg, raised := none, calls := 0, sleeps := [] }
  | fuel' + 1 =>
    match recalls i with
    | none =>
      { registry := dictPop reg channel_id, raised := none, calls := 1, sleeps := [] }
    | some Err.cancel =>
      { registry := reg, raised := some Err.cancel, calls := 1, sleeps := [] }
    | some (Err.exc _) =>
      if i < recall_retry_attempts then
        let r := recallGo channel_id recall_retry_attempts recall_retry_delay_base recalls reg (i + 1) fuel'
        { registry := r.registry, raised := r.raised, calls := r.calls + 1,
          sleeps := (recall_retry_delay_base * 2 ^ i / 1000) :: r.sleeps }
      else
        { registry := reg, raised := none, calls := 1, sleeps := [] }

/-- Translation of `_recall_and_clear_message_id` (source lines 65-94):
under the registry lock, re-check that the channel's current entry still
equals the id to recall; if so run the bounded recall loop, else do nothing.
`log_sensitive_info` only selects log text and is otherwise unused. -/
def _recall_and_clear_message_id (reg : Registry) (channel_id message_id : String)
    (log_sensitive_info : Bool) (recall_retry_attempts : Nat)
    (recall_retry_delay_base : ℚ) (recalls : Nat → Option Err) : RecallOut :=
  if dictGet reg channel_id = some message_id then
    recallGo channel_id recall_retry_attempts recall_retry_delay_base recalls
      reg 0 (recall_retry_attempts + 1)
  else
    { registry := reg, raised := none, calls := 0, sleeps := [] }

/-- Observable result of one `network_error_handler(event)` invocation:
final registry, the signal that escaped (if any), how many times each
external call ran, how many times `_recall_and_clear_message_id` was
invoked, and the sleep values of the retry loop and of the recall loop. -/
structure HOut where
  registry : Registry
  raised : Option Err
  nextCalls : Nat
  retrySleeps : List ℚ
  recallInvocations : Nat
  recallCalls : Nat
  recallSleeps : List ℚ
  sendCalls : Nat
deriving DecidableEq, Repr

/-- The error-notice send at the end of the recovery path
(source lines 186-200).  A cancellation raised by `send_message` is not
caught by `except Exception` and escapes; any other raised exception is
logged and swallowed. -/
def sendNotice (env : Env) (channel_id : String) (reg : Registry)
    (rInv rCalls : Nat) (rSleeps : List ℚ) : HOut :=
  match env.sends 0 with
  | .ok (some mid) =>
    { registry := dictSet reg channel_id mid, raised := none, nextCalls := 0,
      retrySleeps := [], recallInvocations := rInv, recallCalls := rCalls,
      recallSleeps := rSleeps, sendCalls := 1 }
  | .ok none =>
    { registry := reg, raised := none, nextCalls := 0,
      retrySleeps := [], recallInvocations := rInv, recallCalls := rCalls,
      recallSleeps := rSleeps, sendCalls := 1 }
  | .raise Err.cancel =>
    { registry := reg, raised := some Err.cancel, nextCalls := 0,
      retrySleeps := [], recallInvocations := rInv, recallCalls := rCalls,
      recallSleeps := rSleeps, sendCalls := 1 }
  | .raise (Err.exc _) =>
    { registry := reg, raised := none, nextCalls := 0,
      retrySleeps := [], recallInvocations := rInv, recallCalls := rCalls,
      recallSleeps := rSleeps, sendCalls := 1 }

/-- The recovery path after all retries failed (source lines 180-200):
if the snapshot id is truthy, invoke the recall routine (whose cancellation,
if raised, escapes the handler uncaught), then attempt the notice send. -/
def recovering (cfg : Config) (env : Env) (channel_id : String)
    (prior : Option String) (reg : Registry) : HOut :=
  match prior with
  | some s =>
    if s = "" then
      sendNotice env channel_id reg 0 0 []
    else
      let r := _recall_and_clear_message_id reg channel_id s
        cfg.log_sensitive_info cfg.recall_retry_attempts cfg.recall_retry_delay_base env.recalls
      match r.raised with
      | some e =>
        { registry := r.registry, raised := some e, nextCalls := 0,
          retrySleeps := [], recallInvocations := 1, recallCalls := r.calls,
          recallSleeps := r.sleeps, sendCalls := 0 }
      | none => sendNotice env channel_id r.registry 1 r.calls r.sleeps
  | none => sendNotice env channel_id reg 0 0 []

/-- The `for attempts in range(retry_attempts)` loop (source lines 154-178).
`i` is Python's `attempts`; `fuel` is the number of iterations left,
`retry_attempts - i` at every call: sleep the backoff delay, re-invoke the
inner action (call number `i + 1`), and dispatch on its outcome. -/
def retryGo (cfg : Config) (env : Env) (channel_id : String)
    (prior : Option String) (reg : Registry) (i fuel : Nat) : HOut :=
  match fuel with
  | 0 => recovering cfg env channel_id prior reg
  | fuel' + 1 =>
    let d : ℚ := cfg.retry_delay_base * 2 ^ i / 1000
    match env.nexts (i + 1) with
    | .ok mid =>
      let reg' := match mid with
        | some s => dictSet reg channel_id s
        | none => reg
      { registry := reg', raised := none, nextCalls := 1, retrySleeps := [d],
        recallInvocations := 0, recallCalls := 0, recallSleeps := [], sendCalls := 0 }
    | .raise Err.cancel =>
      { registry := reg, raised := some Err.cancel, nextCalls := 1, retrySleeps := [d],
        recallInvocations := 0, recallCalls := 0, recallSleeps := [], sendCalls := 0 }
    | .raise (Err.exc e) =>
      if is_network_error e then
        let r := retryGo cfg env channel_id prior reg (i + 1) fuel'
        { r with nextCalls := r.nextCalls + 1, retrySleeps := d :: r.retrySleeps }
      else
        { registry := reg, raised := some (Err.exc e), nextCalls := 1, retrySleeps := [d],
          recallInvocations := 0, recallCalls := 0, recallSleeps := [], sendCalls := 0 }

/-- Translation of `network_error_handler` (source lines 126-207): snapshot
the channel's registry entry, run the inner action, record a returned id,
re-raise cancellation, re-raise non-network errors, and on a network error
enter the bounded retry loop (whose exhaustion triggers recovery). -/
def network_error_handler (cfg : Config) (env : Env) (reg0 : Registry)
    (event : Event) : HOut :=
  let channel_id := event.channel_id
  let prior := dictGet reg0 channel_id
  match env.nexts 0 with
  | .ok mid =>
    let reg' := match mid with
      | some s => dictSet reg0 channel_id s
      | none => reg0
    { registry := reg', raised := none, nextCalls := 1, retrySleeps := [],
      recallInvocations := 0, recallCalls := 0, recallSleeps := [], sendCalls := 0 }
  | .raise Err.cancel =>
    { registry := reg0, raised := some Err.cancel, nextCalls := 1, retrySleeps := [],
      recallInvocations := 0, recallCalls := 0, recallSleeps := [], sendCalls := 0 }
  | .raise (Err.exc e) =>
    if is_network_error e then
      let r := retryGo cfg env channel_id prior reg0 0 cfg.retry_attempts
      { r with nextCalls := r.nextCalls + 1 }
    else
      { registry := reg0, raised := some (Err.exc e), nextCalls := 1, retrySleeps := [],
        recallInvocations := 0, recallCalls := 0, recallSleeps := [], sendCalls := 0 }

/-! ### Decidable shorthands used in claim statements -/

/-- The `i`-th inner-action outcome is a raised exception classified as a
network error. -/
def isTransientFail : NextResult → Bool
  | .raise (Err.exc e) => is_network_error e
  | _ => false

/-- A recall outcome that is a raised ordinary exception (not cancellation). -/
def isExcFail : Option Err → Bool
  | some (Err.exc _) => true
  | _ => false

/-- A send outcome that raises a cancellation signal. -/
def isCancelSend : SendResult → Bool
  | .raise Err.cancel => true
  | _ => false

/-- Prepends `k` retry iterations (each: one backoff sleep at indices
`i, i+1, ...` and one failed inner-action call) to an invocation outcome;
the shape every transient-failure retry step adds to the trace. -/
def pushRetries (cfg : Config) (i k : Nat) (r : HOut) : HOut :=
  { r with nextCalls := r.nextCalls + k,
           retrySleeps :=
             ((List.range' i k).map fun j => cfg.retry_delay_base * 2 ^ j / 1000)
               ++ r.retrySleeps }

/-! ### Concrete inputs used to exercise the model -/

/-- A transient error: its message mentions "timeout". -/
def wExcNet : PyExc :=
  { isNetworkErrorClass := false, isTypeErrorClass := false, msg := "Connection timeout" }

/-- A non-transient error (spec 8: a plain value error with message "bad input"). -/
def wExcBad : PyExc :=
  { isNetworkErrorClass := false, isTypeErrorClass := false, msg := "bad input" }

/-- A small concrete configuration (spec 8 scenario: two retries, 100 ms base). -/
def wCfg : Config :=
  { retry_attempts := 2, retry_delay_base := 100, error_message := "oops",
    log_sensitive_info := false, recall_retry_attempts := 2, recall_retry_delay_base := 500 }

/-- An environment whose inner action yields the listed outcomes and then keeps
failing transiently, whose recall calls succeed, and whose notice send returns
message id "note1". -/
def wEnv (xs : List NextResult) : Env :=
  { nexts := fun i => xs.getD i (NextResult.raise (Err.exc wExcNet))
    recalls := fun _ => none
    sends := fun _ => SendResult.ok (some "note1") }

/-! ### Dictionary lemmas -/

theorem dictGet_dictPop (d : Registry) (k : String) : dictGet (dictPop d k) k = none := by
  induction d with
  | nil => rfl
  | cons p rest ih =>
    obtain ⟨k', v'⟩ := p
    by_cases h : k' = k <;> simp [dictPop, h, dictGet, ih]

theorem keys_dictSet (d : Registry) (k v : String) :
    (dictSet d k v).map Prod.fst =
      if k ∈ d.map Prod.fst then d.map Prod.fst else d.map Prod.fst ++ [k] := by
  induction d with
  | nil => simp [dictSet]
  | cons p rest ih =>
    obtain ⟨k', v'⟩ := p
    by_cases hk : k' = k
    · subst hk
      simp [dictSet]
    · have hne : ¬ k = k' := fun h => hk h.symm
      by_cases hmem : k ∈ rest.map Prod.fst
      · simp [dictSet, hk, ih, hmem, hne]
      · simp [dictSet, hk, ih, hmem, hne]

theorem keysNodup_dictSet {d : Registry} (h : keysNodup d) (k v : String) :
    keysNodup (dictSet d k v) := by
  unfold keysNodup at *
  rw [keys_dictSet]
  by_cases hmem : k ∈ d.map Prod.fst
  · simpa [hmem] using h
  · simp only [hmem, if_neg, List.nodup_append, ite_false]
    refine ⟨h, by simp, ?_⟩
    intro a ha hk
    simp only [List.mem_singleton] at hk
    subst hk
    exact hmem ha

theorem keys_dictPop_sublist (d : Registry) (k : String) :
    ((dictPop d k).map Prod.fst).Sublist (d.map Prod.fst) := by
  induction d with
  | nil => simp [dictPop]
  | cons p rest ih =>
    obtain ⟨k', v'⟩ := p
    by_cases h : k' = k
    · simpa [dictPop, h] using ih.cons k'
    · simpa [dictPop, h] using ih.cons₂ k'

theorem keysNodup_dictPop {d : Registry} (h : keysNodup d) (k : String) :
    keysNodup (dictPop d k) :=
  (keys_dictPop_sublist d k).nodup h

theorem keyCount_cons (k' v' c : String) (rest : Registry) :
    keyCount ((k', v') :: rest) c = (if k' = c then 1 else 0) + keyCount rest c := by
  by_cases h : k' = c <;> simp [keyCount, List.filter_cons, h] <;> omega

theorem keyCount_eq_zero {d : Registry} {c : String} (h : c ∉ d.map Prod.fst) :
    keyCount d c = 0 := by
  induction d with
  | nil => rfl
  | cons p rest ih =>
    obtain ⟨k', v'⟩ := p
    simp only [List.map_cons, List.mem_cons, not_or] at h
    have hk : ¬ k' = c := fun hkc => h.1 hkc.symm
    rw [keyCount_cons, ih h.2, if_neg hk]

theorem keyCount_le_one {d : Registry} (h : keysNodup d) (c : String) :
    keyCount d c ≤ 1 := by
  induction d with
  | nil => simp [keyCount]
  | cons p rest ih =>
    obtain ⟨k', v'⟩ := p
    simp only [keysNodup, List.map_cons, List.nodup_cons] at h
    rw [keyCount_cons]
    by_cases hk : k' = c
    · subst hk
      rw [keyCount_eq_zero h.1, if_pos rfl]
    · have := ih h.2
      rw [if_neg hk]
      omega

/-! ### Recall-loop lemmas -/

theorem recallGo_registry_cases (ch : String) (rra : Nat) (b : ℚ) (rc : Nat → Option Err)
    (reg : Registry) (i fuel : Nat) :
    (recallGo ch rra b rc reg i fuel).registry = reg ∨
    (recallGo ch rra b rc reg i fuel).registry = dictPop reg ch := by
  induction fuel generalizing i with
  | zero => left; rfl
  | succ fuel ih =>
    cases h : rc i with
    | none => right; simp [recallGo, h]
    | some e =>
      cases e with
      | cancel => left; simp [recallGo, h]
      | exc px =>
        by_cases hi : i < rra
        · simpa [recallGo, h, hi] using ih (i + 1)
        · left; simp [recallGo, h, hi]

theorem recallGo_raised_cancel {ch : String} {rra : Nat} {b : ℚ} {rc : Nat → Option Err}
    {reg : Registry} {i fuel : Nat} {e : Err}
    (h : (recallGo ch rra b rc reg i fuel).raised = some e) : e = Err.cancel := by
  induction fuel generalizing i with
  | zero => simp [recallGo] at h
  | succ fuel ih =>
    cases hrc : rc i with
    | none => simp [recallGo, hrc] at h
    | some e' =>
      cases e' with
      | cancel => simp [recallGo, hrc] at h; exact h.symm
      | exc px =>
        by_cases hi : i < rra
        · exact ih (i := i + 1) (by simpa [recallGo, hrc, hi] using h)
        · simp [recallGo, hrc, hi] at h

theorem recallGo_raised_none {ch : String} {rra : Nat} {b : ℚ} {rc : Nat → Option Err}
    {reg : Registry} {i fuel : Nat} (h : ∀ j, rc j ≠ some Err.cancel) :
    (recallGo ch rra b rc reg i fuel).raised = none := by
  induction fuel generalizing i with
  | zero => rfl
  | succ fuel ih =>
    cases hrc : rc i with
    | none => simp [recallGo, hrc]
    | some e' =>
      cases e' with
      | cancel => exact absurd hrc (h i)
      | exc px =>
        by_cases hi : i < rra
        · simpa [recallGo, hrc, hi] using ih (i := i + 1)
        · simp [recallGo, hrc, hi]

theorem recallGo_success {ch : String} {rra : Nat} {b : ℚ} {rc : Nat → Option Err}
    {reg : Registry} (t : Nat) {i fuel : Nat}
    (hfail : ∀ j, j < t → isExcFail (rc (i + j)) = true)
    (hok : rc (i + t) = none) (hlt : t < fuel) (hle : i + t ≤ rra) :
    (recallGo ch rra b rc reg i fuel).registry = dictPop reg ch := by
  induction t generalizing i fuel with
  | zero =>
    cases fuel with
    | zero => omega
    | succ fuel => simp [recallGo, show rc i = none by simpa using hok]
  | succ t ih =>
    cases fuel with
    | zero => omega
    | succ fuel =>
      have h0 : isExcFail (rc i) = true := by simpa using hfail 0 (by omega)
      cases hrc : rc i with
      | none => simp [isExcFail, hrc] at h0
      | some e =>
        cases e with
        | cancel => simp [isExcFail, hrc] at h0
        | exc px =>
          have hi : i < rra := by omega
          simp only [recallGo, hrc, hi, if_pos]
          exact ih
            (fun j hj => by
              rw [show i + 1 + j = i + (j + 1) by omega]
              exact hfail (j + 1) (by omega))
            (by rw [show i + 1 + t = i + (t + 1) by omega]; exact hok)
            (by omega) (by omega)

theorem recallGo_sleeps_shape (ch : String) (rra : Nat) (b : ℚ) (rc : Nat → Option Err)
    (reg : Registry) (i fuel : Nat) :
    ∃ k, (recallGo ch rra b rc reg i fuel).sleeps =
      (List.range' i k).map fun j => b * 2 ^ j / 1000 := by
  induction fuel generalizing i with
  | zero => exact ⟨0, rfl⟩
  | succ fuel ih =>
    cases hrc : rc i with
    | none => exact ⟨0, by simp [recallGo, hrc]⟩
    | some e =>
      cases e with
      | cancel => exact ⟨0, by simp [recallGo, hrc]⟩
      | exc px =>
        by_cases hi : i < rra
        · obtain ⟨k, hk⟩ := ih (i + 1)
          exact ⟨k + 1, by simp [recallGo, hrc, hi, hk, List.range'_succ]⟩
        · exact ⟨0, by simp [recallGo, hrc, hi]⟩

/-! ### Notice-send and recovery lemmas -/

theorem sendNotice_fields (env : Env) (ch : String) (reg : Registry)
    (rInv rCalls : Nat) (rSleeps : List ℚ) :
    (sendNotice env ch reg rInv rCalls rSleeps).sendCalls = 1 ∧
    (sendNotice env ch reg rInv rCalls rSleeps).recallInvocations = rInv ∧
    (sendNotice env ch reg rInv rCalls rSleeps).recallCalls = rCalls ∧
    (sendNotice env ch reg rInv rCalls rSleeps).recallSleeps = rSleeps ∧
    (sendNotice env ch reg rInv rCalls rSleeps).retrySleeps = [] ∧
    (sendNotice env ch reg rInv rCalls rSleeps).nextCalls = 0 := by
  cases h : env.sends 0 with
  | ok mid => cases mid <;> simp [sendNotice, h]
  | raise e => cases e <;> simp [sendNotice, h]

theorem sendNotice_raised_cancel {env : Env} {ch : String} {reg : Registry}
    {rInv rCalls : Nat} {rSleeps : List ℚ} {e : Err}
    (h : (sendNotice env ch reg rInv rCalls rSleeps).raised = some e) : e = Err.cancel := by
  cases hs : env.sends 0 with
  | ok mid => cases mid <;> simp [sendNotice, hs] at h
  | raise e' =>
    cases e' with
    | cancel => simp [sendNotice, hs] at h; exact h.symm
    | exc px => simp [sendNotice, hs] at h

theorem sendNotice_raised_none {env : Env} {ch : String} {reg : Registry}
    {rInv rCalls : Nat} {rSleeps : List ℚ}
    (h : isCancelSend (env.sends 0) = false) :
    (sendNotice env ch reg rInv rCalls rSleeps).raised = none := by
  cases hs : env.sends 0 with
  | ok mid => cases mid <;> simp [sendNotice, hs]
  | raise e' =>
    cases e' with
    | cancel => rw [hs] at h; simp [isCancelSend] at h
    | exc px => simp [sendNotice, hs]

theorem sendNotice_registry_cases (env : Env) (ch : String) (reg : Registry)
    (rInv rCalls : Nat) (rSleeps : List ℚ) :
    (sendNotice env ch reg rInv rCalls rSleeps).registry = reg ∨
    ∃ mid, (sendNotice env ch reg rInv rCalls rSleeps).registry = dictSet reg ch mid := by
  cases hs : env.sends 0 with
  | ok mid =>
    cases mid with
    | none => left; simp [sendNotice, hs]
    | some s => right; exact ⟨s, by simp [sendNotice, hs]⟩
  | raise e' => cases e' <;> simp [sendNotice, hs]

theorem recovering_raised_cancel {cfg : Config} {env : Env} {ch : String}
    {prior : Option String} {reg : Registry} {e : Err}
    (h : (recovering cfg env ch prior reg).raised = some e) : e = Err.cancel := by
  cases prior with
  | none => exact sendNotice_raised_cancel h
  | some s =>
    by_cases hs : s = ""
    · rw [recovering, if_pos hs] at h
      exact sendNotice_raised_cancel h
    · rw [recovering] at h
      simp only [if_neg hs] at h
      set r := _recall_and_clear_message_id reg ch s cfg.log_sensitive_info
        cfg.recall_retry_attempts cfg.recall_retry_delay_base env.recalls with hr
      cases hraised : r.raised with
      | some e' =>
        simp only [hraised] at h
        have : e' = Err.cancel := by
          rw [hr, _recall_and_clear_message_id] at hraised
          split at hraised
          · exact recallGo_raised_cancel hraised
          · simp at hraised
        simp only [Option.some.injEq] at h
        rw [← h, this]
      | none =>
        simp only [hraised] at h
        exact sendNotice_raised_cancel h

theorem recall_routine_raised_none {reg : Registry} {ch mid : String} {lsi : Bool}
    {rra : Nat} {b : ℚ} {rc : Nat → Option Err} (h : ∀ j, rc j ≠ some Err.cancel) :
    (_recall_and_clear_message_id reg ch mid lsi rra b rc).raised = none := by
  rw [_recall_and_clear_message_id]
  split
  · exact recallGo_raised_none h
  · rfl

theorem recovering_raised_none {cfg : Config} {env : Env} {ch : String}
    {prior : Option String} {reg : Registry}
    (hrc : ∀ j, env.recalls j ≠ some Err.cancel)
    (hs : isCancelSend (env.sends 0) = false) :
    (recovering cfg env ch prior reg).raised = none := by
  cases prior with
  | none => exact sendNotice_raised_none hs
  | some s =>
    by_cases hse : s = ""
    · rw [recovering, if_pos hse]
      exact sendNotice_raised_none hs
    · rw [recovering]
      simp only [if_neg hse]
      rw [recall_routine_raised_none hrc]
      exact sendNotice_raised_none hs

theorem recovering_counts {cfg : Config} {env : Env} {ch : String}
    {prior : Option String} {reg : Registry}
    (hrc : ∀ j, env.recalls j ≠ some Err.cancel) :
    (recovering cfg env ch prior reg).sendCalls = 1 ∧
    (recovering cfg env ch prior reg).recallInvocations =
      (if truthyOpt prior then 1 else 0) ∧
    (recovering cfg env ch prior reg).nextCalls = 0 ∧
    (recovering cfg env ch prior reg).retrySleeps = [] := by
  cases prior with
  | none =>
    have h := sendNotice_fields env ch reg 0 0 []
    exact ⟨h.1, by simpa [truthyOpt, recovering] using h.2.1,
           by simpa [recovering] using h.2.2.2.2.2, by simpa [recovering] using h.2.2.2.2.1⟩
  | some s =>
    by_cases hse : s = ""
    · subst hse
      have h := sendNotice_fields env ch reg 0 0 []
      refine ⟨by simpa [recovering] using h.1, ?_, ?_, ?_⟩
      · simpa [recovering, truthyOpt] using h.2.1
      · simpa [recovering] using h.2.2.2.2.2
      · simpa [recovering] using h.2.2.2.2.1
    · rw [recovering]
      simp only [if_neg hse]
      rw [recall_routine_raised_none hrc]
      set r := _recall_and_clear_message_id reg ch s cfg.log_sensitive_info
        cfg.recall_retry_attempts cfg.recall_retry_delay_base env.recalls with hr
      have h := sendNotice_fields env ch r.registry 1 r.calls r.sleeps
      exact ⟨h.1, by simpa [truthyOpt, hse] using h.2.1, h.2.2.2.2.2, h.2.2.2.2.1⟩

theorem recall_routine_registry_cases (reg : Registry) (ch mid : String) (lsi : Bool)
    (rra : Nat) (b : ℚ) (rc : Nat → Option Err) :
    (_recall_and_clear_message_id reg ch mid lsi rra b rc).registry = reg ∨
    (_recall_and_clear_message_id reg ch mid lsi rra b rc).registry = dictPop reg ch := by
  rw [_recall_and_clear_message_id]
  split
  · exact recallGo_registry_cases ch rra b rc reg 0 (rra + 1)
  · left; rfl

theorem keysNodup_recovering {cfg : Config} {env : Env} {ch : String}
    {prior : Option String} {reg : Registry} (h : keysNodup reg) :
    keysNodup ((recovering cfg env ch prior reg).registry) := by
  have hsend : ∀ (reg' : Registry) (rInv rCalls : Nat) (rSleeps : List ℚ),
      keysNodup reg' → keysNodup (sendNotice env ch reg' rInv rCalls rSleeps).registry := by
    intro reg' rInv rCalls rSleeps h'
    rcases sendNotice_registry_cases env ch reg' rInv rCalls rSleeps with hc | ⟨mid, hc⟩
    · rw [hc]; exact h'
    · rw [hc]; exact keysNodup_dictSet h' ch mid
  cases prior with
  | none => exact hsend reg 0 0 [] h
  | some s =>
    by_cases hse : s = ""
    · rw [recovering, if_pos hse]
      exact hsend reg 0 0 [] h
    · rw [recovering]
      simp only [if_neg hse]
      set r := _recall_and_clear_message_id reg ch s cfg.log_sensitive_info
        cfg.recall_retry_attempts cfg.recall_retry_delay_base env.recalls with hr
      have hnr : keysNodup r.registry := by
        rcases recall_routine_registry_cases reg ch s cfg.log_sensitive_info
          cfg.recall_retry_attempts cfg.recall_retry_delay_base env.recalls with hc | hc
        · rw [hr, hc]; exact h
        · rw [hr, hc]; exact keysNodup_dictPop h ch
      cases hraised : r.raised with
      | some e => simpa using hnr
      | none => exact hsend r.registry 1 r.calls r.sleeps hnr

theorem recovering_retrySleeps (cfg : Config) (env : Env) (ch : String)
    (prior : Option String) (reg : Registry) :
    (recovering cfg env ch prior reg).retrySleeps = [] := by
  cases prior with
  | none => exact (sendNotice_fields env ch reg 0 0 []).2.2.2.2.1
  | some s =>
    by_cases hse : s = ""
    · rw [recovering, if_pos hse]
      exact (sendNotice_fields env ch reg 0 0 []).2.2.2.2.1
    · rw [recovering]
      simp only [if_neg hse]
      set r := _recall_and_clear_message_id reg ch s cfg.log_sensitive_info
        cfg.recall_retry_attempts cfg.recall_retry_delay_base env.recalls with hr
      cases hraised : r.raised with
      | some e => simp
      | none => exact (sendNotice_fields env ch r.registry 1 r.calls r.sleeps).2.2.2.2.1

theorem recall_routine_sleeps_shape (reg : Registry) (ch mid : String) (lsi : Bool)
    (rra : Nat) (b : ℚ) (rc : Nat → Option Err) :
    ∃ k, (_recall_and_clear_message_id reg ch mid lsi rra b rc).sleeps =
      (List.range' 0 k).map fun j => b * 2 ^ j / 1000 := by
  rw [_recall_and_clear_message_id]
  split
  · exact recallGo_sleeps_shape ch rra b rc reg 0 (rra + 1)
  · exact ⟨0, rfl⟩

theorem recovering_recallSleeps_shape (cfg : Config) (env : Env) (ch : String)
    (prior : Option String) (reg : Registry) :
    ∃ k, (recovering cfg env ch prior reg).recallSleeps =
      (List.range' 0 k).map fun j => cfg.recall_retry_delay_base * 2 ^ j / 1000 := by
  cases prior with
  | none => exact ⟨0, (sendNotice_fields env ch reg 0 0 []).2.2.2.1⟩
  | some s =>
    by_cases hse : s = ""
    · rw [recovering, if_pos hse]
      exact ⟨0, (sendNotice_fields env ch reg 0 0 []).2.2.2.1⟩
    · rw [recovering]
      simp only [if_neg hse]
      set r := _recall_and_clear_message_id reg ch s cfg.log_sensitive_info
        cfg.recall_retry_attempts cfg.recall_retry_delay_base env.recalls with hr
      obtain ⟨k, hk⟩ := recall_routine_sleeps_shape reg ch s cfg.log_sensitive_info
        cfg.recall_retry_attempts cfg.recall_retry_delay_base env.recalls
      cases hraised : r.raised with
      | some e => exact ⟨k, by simpa using hk⟩
      | none =>
        exact ⟨k, by rw [(sendNotice_fields env ch r.registry 1 r.calls r.sleeps).2.2.2.1, hr, hk]⟩

/-! ### Retry-loop lemmas -/

theorem retryGo_steps (cfg : Config) (env : Env) (ch : String) (prior : Option String)
    (reg : Registry) (k : Nat) {i fuel : Nat} (hk : k ≤ fuel)
    (hfail : ∀ j, j < k → isTransientFail (env.nexts (i + 1 + j)) = true) :
    retryGo cfg env ch prior reg i fuel =
      pushRetries cfg i k (retryGo cfg env ch prior reg (i + k) (fuel - k)) := by
  induction k generalizing i fuel with
  | zero => simp [pushRetries]
  | succ k ih =>
    cases fuel with
    | zero => omega
    | succ fuel =>
      have h0 : isTransientFail (env.nexts (i + 1)) = true := by
        simpa using hfail 0 (by omega)
      cases hn : env.nexts (i + 1) with
      | ok mid => simp [isTransientFail, hn] at h0
      | raise e =>
        cases e with
        | cancel => simp [isTransientFail, hn] at h0
        | exc px =>
          have htr : is_network_error px = true := by
            simpa [isTransientFail, hn] using h0
          rw [show i + (k + 1) = (i + 1) + k by omega,
              show fuel + 1 - (k + 1) = fuel - k by omega]
          rw [retryGo]
          simp only [hn, htr, if_pos]
          rw [ih (by omega) (fun j hj => by
                rw [show i + 1 + 1 + j = i + 1 + (j + 1) by omega]
                exact hfail (j + 1) (by omega))]
          simp [pushRetries, List.range'_succ, Nat.add_assoc, Nat.add_comm 1 k]

theorem retryGo_raised_cases {cfg : Config} {env : Env} {ch : String}
    {prior : Option String} {reg : Registry} {i fuel : Nat} {e : Err}
    (h : (retryGo cfg env ch prior reg i fuel).raised = some e) :
    e = Err.cancel ∨ ∃ px, e = Err.exc px ∧ is_network_error px = false ∧
      ∃ j, env.nexts j = NextResult.raise (Err.exc px) := by
  induction fuel generalizing i reg with
  | zero => exact Or.inl (recovering_raised_cancel h)
  | succ fuel ih =>
    cases hn : env.nexts (i + 1) with
    | ok mid => cases mid <;> simp [retryGo, hn] at h
    | raise e' =>
      cases e' with
      | cancel =>
        simp [retryGo, hn] at h
        exact Or.inl h.symm
      | exc px =>
        by_cases htr : is_network_error px
        · rw [retryGo] at h
          simp only [hn, htr, if_pos] at h
          exact ih h
        · rw [retryGo] at h
          simp only [hn, htr, if_false, Bool.false_eq_true, if_neg] at h
          simp only [Option.some.injEq] at h
          refine Or.inr ⟨px, h.symm, by simpa using htr, i + 1, hn⟩

theorem retryGo_retrySleeps_shape (cfg : Config) (env : Env) (ch : String)
    (prior : Option String) (reg : Registry) (i fuel : Nat) :
    ∃ k, (retryGo cfg env ch prior reg i fuel).retrySleeps =
      (List.range' i k).map fun j => cfg.retry_delay_base * 2 ^ j / 1000 := by
  induction fuel generalizing i reg with
  | zero => exact ⟨0, recovering_retrySleeps cfg env ch prior reg⟩
  | succ fuel ih =>
    cases hn : env.nexts (i + 1) with
    | ok mid =>
      refine ⟨1, ?_⟩
      cases mid <;> simp [retryGo, hn, List.range'_succ]
    | raise e' =>
      cases e' with
      | cancel => exact ⟨1, by simp [retryGo, hn, List.range'_succ]⟩
      | exc px =>
        by_cases htr : is_network_error px
        · obtain ⟨k, hk⟩ := ih reg (i + 1)
          refine ⟨k + 1, ?_⟩
          rw [retryGo]
          simp only [hn, htr, if_pos]
          simp [hk, List.range'_succ]
        · exact ⟨1, by rw [retryGo]; simp [hn, htr, List.range'_succ]⟩

theorem retryGo_recallSleeps_shape (cfg : Config) (env : Env) (ch : String)
    (prior : Option String) (reg : Registry) (i fuel : Nat) :
    ∃ k, (retryGo cfg env ch prior reg i fuel).recallSleeps =
      (List.range' 0 k).map fun j => cfg.recall_retry_delay_base * 2 ^ j / 1000 := by
  induction fuel generalizing i reg with
  | zero => exact recovering_recallSleeps_shape cfg env ch prior reg
  | succ fuel ih =>
    cases hn : env.nexts (i + 1) with
    | ok mid =>
      refine ⟨0, ?_⟩
      cases mid <;> simp [retryGo, hn]
    | raise e' =>
      cases e' with
      | cancel => exact ⟨0, by simp [retryGo, hn]⟩
      | exc px =>
        by_cases htr : is_network_error px
        · obtain ⟨k, hk⟩ := ih reg (i + 1)
          refine ⟨k, ?_⟩
          rw [retryGo]
          simp only [hn, htr, if_pos]
          simpa using hk
        · exact ⟨0, by rw [retryGo]; simp [hn, htr]⟩

theorem keysNodup_retryGo {cfg : Config} {env : Env} {ch : String}
    {prior : Option String} {reg : Registry} {i fuel : Nat} (h : keysNodup reg) :
    keysNodup ((retryGo cfg env ch prior reg i fuel).registry) := by
  induction fuel generalizing i reg with
  | zero => exact keysNodup_recovering h
  | succ fuel ih =>
    cases hn : env.nexts (i + 1) with
    | ok mid =>
      cases mid with
      | none => simpa [retryGo, hn] using h
      | some s => simpa [retryGo, hn] using keysNodup_dictSet h ch s
    | raise e' =>
      cases e' with
      | cancel => simpa [retryGo, hn] using h
      | exc px =>
        by_cases htr : is_network_error px
        · rw [retryGo]
          simp only [hn, htr, if_pos]
          simpa using ih h
        · rw [retryGo]
          simp only [hn, htr, if_false, Bool.false_eq_true, if_neg]
          simpa using h

/-! ### Configuration lemmas -/

theorem validate_config_ok_iff (c : RawConfig) :
    validate_config c = Except.ok () ↔
      (pyIsInt c.retry_attempts = true ∧ 0 ≤ pyNum c.retry_attempts ∧
       pyIsNum c.retry_delay_base = true ∧ 0 < pyNum c.retry_delay_base ∧
       pyIsStr c.error_message = true ∧
       pyIsBool c.log_sensitive_info = true ∧
       pyIsInt c.recall_retry_attempts = true ∧ 0 ≤ pyNum c.recall_retry_attempts ∧
       pyIsNum c.recall_retry_delay_base = true ∧ 0 < pyNum c.recall_retry_delay_base) := by
  unfold validate_config
  by_cases h1 : ¬ pyIsInt c.retry_attempts = true ∨ pyNum c.retry_attempts < 0
  · rw [if_pos h1]
    refine iff_of_false (by simp) ?_
    rintro ⟨a1, a2, -, -, -, -, -, -, -, -⟩
    rcases h1 with h | h
    · exact h a1
    · exact absurd h (not_lt.mpr a2)
  rw [if_neg h1]
  by_cases h2 : ¬ pyIsNum c.retry_delay_base = true ∨ pyNum c.retry_delay_base ≤ 0
  · rw [if_pos h2]
    refine iff_of_false (by simp) ?_
    rintro ⟨-, -, a3, a4, -, -, -, -, -, -⟩
    rcases h2 with h | h
    · exact h a3
    · exact absurd h (not_le.mpr a4)
  rw [if_neg h2]
  by_cases h3 : ¬ pyIsStr c.error_message = true
  · rw [if_pos h3]
    refine iff_of_false (by simp) ?_
    rintro ⟨-, -, -, -, a5, -, -, -, -, -⟩
    exact h3 a5
  rw [if_neg h3]
  by_cases h4 : ¬ pyIsBool c.log_sensitive_info = true
  · rw [if_pos h4]
    refine iff_of_false (by simp) ?_
    rintro ⟨-, -, -, -, -, a6, -, -, -, -⟩
    exact h4 a6
  rw [if_neg h4]
  by_cases h5 : ¬ pyIsInt c.recall_retry_attempts = true ∨ pyNum c.recall_retry_attempts < 0
  · rw [if_pos h5]
    refine iff_of_false (by simp) ?_
    rintro ⟨-, -, -, -, -, -, a7, a8, -, -⟩
    rcases h5 with h | h
    · exact h a7
    · exact absurd h (not_lt.mpr a8)
  rw [if_neg h5]
  by_cases h6 : ¬ pyIsNum c.recall_retry_delay_base = true ∨ pyNum c.recall_retry_delay_base ≤ 0
  · rw [if_pos h6]
    refine iff_of_false (by simp) ?_
    rintro ⟨-, -, -, -, -, -, -, -, a9, a10⟩
    rcases h6 with h | h
    · exact h a9
    · exact absurd h (not_le.mpr a10)
  rw [if_neg h6]
  push_neg at h1 h2 h3 h4 h5 h6
  exact iff_of_true rfl ⟨h1.1, h1.2, h2.1, h2.2, h3, h4, h5.1, h5.2, h6.1, h6.2⟩

/-! ### Handler-level lemmas -/

theorem isTransientFail_elim {r : NextResult} (h : isTransientFail r = true) :
    ∃ px, r = NextResult.raise (Err.exc px) ∧ is_network_error px = true := by
  cases r with
  | ok mid => simp [isTransientFail] at h
  | raise e =>
    cases e with
    | cancel => simp [isTransientFail] at h
    | exc px => exact ⟨px, rfl, by simpa [isTransientFail] using h⟩

theorem handler_transient_start {cfg : Config} {env : Env} {reg0 : Registry}
    {event : Event} {e : PyExc}
    (hn : env.nexts 0 = NextResult.raise (Err.exc e)) (htr : is_network_error e = true) :
    network_error_handler cfg env reg0 event =
      { retryGo cfg env event.channel_id (dictGet reg0 event.channel_id) reg0 0
          cfg.retry_attempts with
        nextCalls :=
          (retryGo cfg env event.channel_id (dictGet reg0 event.channel_id) reg0 0
            cfg.retry_attempts).nextCalls + 1 } := by
  simp [network_error_handler, hn, htr]

theorem keysNodup_handler {cfg : Config} {env : Env} {reg0 : Registry} {event : Event}
    (h : keysNodup reg0) :
    keysNodup ((network_error_handler cfg env reg0 event).registry) := by
  cases hn : env.nexts 0 with
  | ok mid =>
    cases mid with
    | none => simpa [network_error_handler, hn] using h
    | some s => simpa [network_error_handler, hn] using keysNodup_dictSet h event.channel_id s
  | raise e =>
    cases e with
    | cancel => simpa [network_error_handler, hn] using h
    | exc px =>
      by_cases htr : is_network_error px
      · rw [handler_transient_start hn htr]
        simpa using keysNodup_retryGo h
      · rw [network_error_handler]
        simp only [hn, htr, if_false, Bool.false_eq_true, if_neg]
        simpa using h

theorem handler_retrySleeps_shape (cfg : Config) (env : Env) (reg0 : Registry)
    (event : Event) :
    ∃ k, (network_error_handler cfg env reg0 event).retrySleeps =
      (List.range' 0 k).map fun j => cfg.retry_delay_base * 2 ^ j / 1000 := by
  cases hn : env.nexts 0 with
  | ok mid =>
    refine ⟨0, ?_⟩
    cases mid <;> simp [network_error_handler, hn]
  | raise e =>
    cases e with
    | cancel => exact ⟨0, by simp [network_error_handler, hn]⟩
    | exc px =>
      by_cases htr : is_network_error px
      · rw [handler_transient_start hn htr]
        simpa using retryGo_retrySleeps_shape cfg env event.channel_id
          (dictGet reg0 event.channel_id) reg0 0 cfg.retry_attempts
      · refine ⟨0, ?_⟩
        rw [network_error_handler]
        simp [hn, htr]

theorem handler_recallSleeps_shape (cfg : Config) (env : Env) (reg0 : Registry)
    (event : Event) :
    ∃ k, (network_error_handler cfg env reg0 event).recallSleeps =
      (List.range' 0 k).map fun j => cfg.recall_retry_delay_base * 2 ^ j / 1000 := by
  cases hn : env.nexts 0 with
  | ok mid =>
    refine ⟨0, ?_⟩
    cases mid <;> simp [network_error_handler, hn]
  | raise e =>
    cases e with
    | cancel => exact ⟨0, by simp [network_error_handler, hn]⟩
    | exc px =>
      by_cases htr : is_network_error px
      · rw [handler_transient_start hn htr]
        simpa using retryGo_recallSleeps_shape cfg env event.channel_id
          (dictGet reg0 event.channel_id) reg0 0 cfg.retry_attempts
      · refine ⟨0, ?_⟩
        rw [network_error_handler]
        simp [hn, htr]

theorem sleeps_ms {b : ℚ} {l : List ℚ} (k : Nat)
    (h : l = (List.range' 0 k).map fun j => b * 2 ^ j / 1000) :
    l.map (fun d => 1000 * d) = (List.range l.length).map fun i => b * 2 ^ i := by
  subst h
  rw [List.map_map, List.range_eq_range']
  simp only [List.length_map, List.length_range']
  refine List.map_congr_left ?_
  intro j hj
  simp only [Function.comp_apply]
  rw [mul_comm (1000 : ℚ)]
  exact div_mul_cancel₀ _ (by norm_num)

/-! ### Claim theorems -/

/-- Claim C8: `is_network_error` returns true exactly when the error is a
dedicated network-error kind, or its case-insensitive description contains one
of the six keywords, or it is a type-mismatch error mentioning "fetch" or
"network request"; otherwise false.  `isTransientSpec` is the claim's wording;
both are total Lean functions, matching "pure, side-effect-free, never
throws". -/
theorem C8_classifier_matches_spec (e : PyExc) : is_network_error e = isTransientSpec e := by
  obtain ⟨nc, tc, msg⟩ := e
  simp only [is_network_error, isTransientSpec, strIn, containsCI, List.any_cons, List.any_nil]
  rw [show lowerList "network".data = "network".data from by decide,
      show lowerList "timeout".data = "timeout".data from by decide,
      show lowerList "connection reset".data = "connection reset".data from by decide,
      show lowerList "connection refused".data = "connection refused".data from by decide,
      show lowerList "host unreachable".data = "host unreachable".data from by decide,
      show lowerList "name or service not known".data = "name or service not known".data from by decide,
      show lowerList "fetch".data = "fetch".data from by decide,
      show lowerList "network request".data = "network request".data from by decide]
  cases nc <;> cases tc <;> simp <;>
    cases seqMem "network".data (lowerList msg.data) <;>
    cases seqMem "timeout".data (lowerList msg.data) <;>
    cases seqMem "connection reset".data (lowerList msg.data) <;>
    cases seqMem "connection refused".data (lowerList msg.data) <;>
    cases seqMem "host unreachable".data (lowerList msg.data) <;>
    cases seqMem "name or service not known".data (lowerList msg.data) <;>
    simp

/-- Claim C7: wrapper construction validates the merged configuration (once,
at construction) and yields a handler exactly when none of the listed
constraints is violated: a non-integer or negative `retry_attempts`, a
non-number or non-positive `retry_delay_base`, a non-string `error_message`,
a non-boolean `log_sensitive_info`, a non-integer or negative
`recall_retry_attempts`, or a non-number or non-positive
`recall_retry_delay_base` each make construction fail. -/
theorem C7_construction_fails_on_bad_config (o : Overrides) :
    (∃ cfg, create_network_error_handler o = Except.ok cfg) ↔
      (pyIsInt (mergeConfig o).retry_attempts = true ∧
       0 ≤ pyNum (mergeConfig o).retry_attempts ∧
       pyIsNum (mergeConfig o).retry_delay_base = true ∧
       0 < pyNum (mergeConfig o).retry_delay_base ∧
       pyIsStr (mergeConfig o).error_message = true ∧
       pyIsBool (mergeConfig o).log_sensitive_info = true ∧
       pyIsInt (mergeConfig o).recall_retry_attempts = true ∧
       0 ≤ pyNum (mergeConfig o).recall_retry_attempts ∧
       pyIsNum (mergeConfig o).recall_retry_delay_base = true ∧
       0 < pyNum (mergeConfig o).recall_retry_delay_base) := by
  rw [← validate_config_ok_iff]
  unfold create_network_error_handler
  cases hv : validate_config (mergeConfig o) with
  | error e => simp [hv]
  | ok u => cases u; simp [hv]

/-- Claim C9: Python booleans pass the `isinstance(..., int)` checks, so a
wrapper is successfully built from a configuration whose retry counts are
`True` and `False`, read as 1 and 0. -/
theorem C9_bool_retry_counts_accepted :
    create_network_error_handler
        { retry_attempts := some (PyVal.pbool true),
          recall_retry_attempts := some (PyVal.pbool false) } =
      Except.ok
        { retry_attempts := 1, retry_delay_base := 1000,
          error_message := "抱歉，发生网络错误，消息已撤回。",
          log_sensitive_info := false, recall_retry_attempts := 0,
          recall_retry_delay_base := 500 } := by
  rfl

/-- Claim C10: when the inner action completes successfully but returns
`None`, the handler leaves the whole registry unchanged (in particular the
event's channel entry) and returns without raising. -/
theorem C10_success_none_leaves_registry (cfg : Config) (env : Env) (reg0 : Registry)
    (event : Event) (h : env.nexts 0 = NextResult.ok none) :
    (network_error_handler cfg env reg0 event).registry = reg0 ∧
    (network_error_handler cfg env reg0 event).raised = none := by
  simp [network_error_handler, h]

theorem C10_witness :
    (wEnv [NextResult.ok none]).nexts 0 = NextResult.ok none ∧
    (network_error_handler wCfg (wEnv [NextResult.ok none]) [("c", "m0")] ⟨"c"⟩).registry
      = [("c", "m0")] ∧
    (network_error_handler wCfg (wEnv [NextResult.ok none]) [("c", "m0")] ⟨"c"⟩).raised = none := by
  refine ⟨rfl, ?_⟩
  exact C10_success_none_leaves_registry wCfg (wEnv [NextResult.ok none]) [("c", "m0")] ⟨"c"⟩ rfl

/-- Claim C3: a non-transient error from the inner action is re-raised
exactly, with no retry past it and no recall.  On the first attempt
(first conjunct) the whole observable outcome is one inner call, no sleep,
no registry change; on retry index `k < retryAttempts` (second conjunct,
with all earlier outcomes transient failures) the handler stops after the
`k`-th retry: `k + 2` inner calls, `k + 1` backoff sleeps, registry
untouched, zero recall and notice activity. -/
theorem C3_nontransient_propagates (cfg : Config) (env : Env) (reg0 : Registry)
    (event : Event) (e : PyExc) (k : Nat) :
    (env.nexts 0 = NextResult.raise (Err.exc e) → is_network_error e = false →
      network_error_handler cfg env reg0 event =
        { registry := reg0, raised := some (Err.exc e), nextCalls := 1, retrySleeps := [],
          recallInvocations := 0, recallCalls := 0, recallSleeps := [], sendCalls := 0 }) ∧
    ((∀ j, j < k + 1 → isTransientFail (env.nexts j) = true) →
     k < cfg.retry_attempts →
     env.nexts (k + 1) = NextResult.raise (Err.exc e) → is_network_error e = false →
      network_error_handler cfg env reg0 event =
        { registry := reg0, raised := some (Err.exc e), nextCalls := k + 2,
          retrySleeps := ((List.range' 0 k).map fun j => cfg.retry_delay_base * 2 ^ j / 1000)
            ++ [cfg.retry_delay_base * 2 ^ k / 1000],
          recallInvocations := 0, recallCalls := 0, recallSleeps := [], sendCalls := 0 }) := by
  constructor
  · intro hn htr
    rw [network_error_handler]
    simp [hn, htr]
  · intro hfails hk hnk htr
    obtain ⟨e0, hn0, htr0⟩ := isTransientFail_elim (hfails 0 (by omega))
    rw [handler_transient_start hn0 htr0]
    rw [retryGo_steps cfg env event.channel_id (dictGet reg0 event.channel_id) reg0 k
        (by omega)
        (fun j hj => by
          rw [show 0 + 1 + j = j + 1 by omega]
          exact hfails (j + 1) (by omega))]
    obtain ⟨M, hM⟩ : ∃ M, cfg.retry_attempts - k = M + 1 := ⟨cfg.retry_attempts - k - 1, by omega⟩
    rw [show (0 : Nat) + k = k by omega, hM, retryGo]
    simp only [hnk, htr, Bool.false_eq_true, if_false]
    simp [pushRetries, HOut.mk.injEq]
    omega

/-- Claim C4: a cancellation signal from the inner action propagates
immediately — on the initial attempt (first conjunct) or on retry index
`k < retryAttempts` after transient failures (second conjunct) — with no
further retry, no recall invocation, and no notice send; it is never treated
as a transient failure. -/
theorem C4_cancellation_propagates (cfg : Config) (env : Env) (reg0 : Registry)
    (event : Event) (k : Nat) :
    (env.nexts 0 = NextResult.raise Err.cancel →
      network_error_handler cfg env reg0 event =
        { registry := reg0, raised := some Err.cancel, nextCalls := 1, retrySleeps := [],
          recallInvocations := 0, recallCalls := 0, recallSleeps := [], sendCalls := 0 }) ∧
    ((∀ j, j < k + 1 → isTransientFail (env.nexts j) = true) →
     k < cfg.retry_attempts →
     env.nexts (k + 1) = NextResult.raise Err.cancel →
      network_error_handler cfg env reg0 event =
        { registry := reg0, raised := some Err.cancel, nextCalls := k + 2,
          retrySleeps := ((List.range' 0 k).map fun j => cfg.retry_delay_base * 2 ^ j / 1000)
            ++ [cfg.retry_delay_base * 2 ^ k / 1000],
          recallInvocations := 0, recallCalls := 0, recallSleeps := [], sendCalls := 0 }) := by
  constructor
  · intro hn
    rw [network_error_handler]
    simp [hn]
  · intro hfails hk hnk
    obtain ⟨e0, hn0, htr0⟩ := isTransientFail_elim (hfails 0 (by omega))
    rw [handler_transient_start hn0 htr0]
    rw [retryGo_steps cfg env event.channel_id (dictGet reg0 event.channel_id) reg0 k
        (by omega)
        (fun j hj => by
          rw [show 0 + 1 + j = j + 1 by omega]
          exact hfails (j + 1) (by omega))]
    obtain ⟨M, hM⟩ : ∃ M, cfg.retry_attempts - k = M + 1 := ⟨cfg.retry_attempts - k - 1, by omega⟩
    rw [show (0 : Nat) + k = k by omega, hM, retryGo]
    simp only [hnk]
    simp [pushRetries, HOut.mk.injEq]
    omega

/-- Claim C1: with `retryAttempts = N`, an inner action that fails
transiently on calls `0..N-1` and succeeds on call `N` with a message id has
that id recorded for the event's channel, with no recall invocation, no
`recall_message` call, and no notice send (first conjunct); an inner action
that fails transiently on all of calls `0..N` (N+1 failures) triggers exactly
one recall-routine invocation when the channel's prior registry entry is a
truthy (non-empty) id and none otherwise, and exactly one notice send
(second conjunct; recall outcomes are ordinary failures or successes, not
cancellations). -/
theorem C1_exhaustion_boundary (cfg : Config) (env : Env) (reg0 : Registry)
    (event : Event) (mid : String) :
    ((∀ i, i < cfg.retry_attempts → isTransientFail (env.nexts i) = true) →
     env.nexts cfg.retry_attempts = NextResult.ok (some mid) →
      (network_error_handler cfg env reg0 event).registry =
        dictSet reg0 event.channel_id mid ∧
      (network_error_handler cfg env reg0 event).raised = none ∧
      (network_error_handler cfg env reg0 event).recallInvocations = 0 ∧
      (network_error_handler cfg env reg0 event).recallCalls = 0 ∧
      (network_error_handler cfg env reg0 event).sendCalls = 0) ∧
    ((∀ i, i ≤ cfg.retry_attempts → isTransientFail (env.nexts i) = true) →
     (∀ j, env.recalls j ≠ some Err.cancel) →
      (network_error_handler cfg env reg0 event).recallInvocations =
        (if truthyOpt (dictGet reg0 event.channel_id) then 1 else 0) ∧
      (network_error_handler cfg env reg0 event).sendCalls = 1) := by
  constructor
  · intro hfails hok
    cases hN : cfg.retry_attempts with
    | zero =>
      rw [hN] at hok
      rw [network_error_handler]
      simp [hok]
    | succ M =>
      obtain ⟨e0, hn0, htr0⟩ := isTransientFail_elim (hfails 0 (by omega))
      rw [handler_transient_start hn0 htr0, hN]
      rw [retryGo_steps cfg env event.channel_id (dictGet reg0 event.channel_id) reg0 M
          (by omega)
          (fun j hj => by
            rw [show 0 + 1 + j = j + 1 by omega]
            exact hfails (j + 1) (by omega))]
      rw [show (0 : Nat) + M = M by omega, show M + 1 - M = 0 + 1 by omega, retryGo]
      rw [hN, show M + 1 = M + 0 + 1 by omega] at hok
      simp only [hok]
      simp [pushRetries]
  · intro hfails hrc
    obtain ⟨e0, hn0, htr0⟩ := isTransientFail_elim (hfails 0 (by omega))
    rw [handler_transient_start hn0 htr0]
    rw [retryGo_steps cfg env event.channel_id (dictGet reg0 event.channel_id) reg0
        cfg.retry_attempts (le_refl _)
        (fun j hj => by
          rw [show 0 + 1 + j = j + 1 by omega]
          exact hfails (j + 1) (by omega))]
    rw [show cfg.retry_attempts - cfg.retry_attempts = 0 by omega, retryGo]
    have hc := @recovering_counts cfg env event.channel_id
      (dictGet reg0 event.channel_id) reg0 hrc
    simp only [pushRetries]
    exact ⟨by simpa using hc.2.1, by simpa using hc.1⟩

/-- Claim C2: the only signals that ever leave the handler are a cancellation
or the exact non-transient exception some inner-action call raised (first
conjunct, over every environment, including ones where recall and notice
calls fail arbitrarily); the recall routine never raises when its
`recall_message` outcomes are ordinary successes or failures (second
conjunct); and when every attempt fails transiently and neither the recall
outcomes nor the notice send carry a cancellation, the handler returns
normally even though every recall call and the notice send itself may have
failed (third conjunct). -/
theorem C2_only_nontransient_or_cancel_escape (cfg : Config) (env : Env)
    (reg0 : Registry) (event : Event) :
    (∀ e, (network_error_handler cfg env reg0 event).raised = some e →
      e = Err.cancel ∨ ∃ px, e = Err.exc px ∧ is_network_error px = false ∧
        ∃ j, env.nexts j = NextResult.raise (Err.exc px)) ∧
    (∀ (reg : Registry) (ch mid : String) (lsi : Bool) (rra : Nat) (b : ℚ),
      (∀ j, env.recalls j ≠ some Err.cancel) →
      (_recall_and_clear_message_id reg ch mid lsi rra b env.recalls).raised = none) ∧
    ((∀ i, i ≤ cfg.retry_attempts → isTransientFail (env.nexts i) = true) →
     (∀ j, env.recalls j ≠ some Err.cancel) →
     isCancelSend (env.sends 0) = false →
      (network_error_handler cfg env reg0 event).raised = none) := by
  refine ⟨?_, ?_, ?_⟩
  · intro e h
    cases hn : env.nexts 0 with
    | ok mid =>
      rw [network_error_handler] at h
      cases mid <;> simp [hn] at h
    | raise e' =>
      cases e' with
      | cancel =>
        rw [network_error_handler] at h
        simp [hn] at h
        exact Or.inl h.symm
      | exc px =>
        by_cases htr : is_network_error px
        · rw [handler_transient_start hn htr] at h
          exact retryGo_raised_cases (by simpa using h)
        · rw [network_error_handler] at h
          simp [hn, htr] at h
          exact Or.inr ⟨px, h.symm, by simpa using htr, 0, hn⟩
  · intro reg ch mid lsi rra b hrc
    exact recall_routine_raised_none hrc
  · intro hfails hrc hs
    obtain ⟨e0, hn0, htr0⟩ := isTransientFail_elim (hfails 0 (by omega))
    rw [handler_transient_start hn0 htr0]
    rw [retryGo_steps cfg env event.channel_id (dictGet reg0 event.channel_id) reg0
        cfg.retry_attempts (le_refl _)
        (fun j hj => by
          rw [show 0 + 1 + j = j + 1 by omega]
          exact hfails (j + 1) (by omega))]
    rw [show cfg.retry_attempts - cfg.retry_attempts = 0 by omega, retryGo]
    simp only [pushRetries]
    simpa using @recovering_raised_none cfg env event.channel_id
      (dictGet reg0 event.channel_id) reg0 hrc hs

/-- Claim C5: the recall routine first re-checks the registry: when the
channel's current entry differs from the target id it makes no recall call
and leaves the registry unchanged (first conjunct); when the re-check passes
and the recall call eventually succeeds (attempt `t ≤ recallRetryAttempts`,
after ordinary failures), the channel's entry is absent afterwards (second
conjunct); and the registry never holds more than one entry per channel —
the routine preserves the no-duplicate-keys dict invariant, which bounds
every channel's entry count by one, and the full handler preserves it too
(remaining conjuncts). -/
theorem C5_recall_recheck_and_registry (reg : Registry) (ch mid : String) (lsi : Bool)
    (rra : Nat) (b : ℚ) (rc : Nat → Option Err) (t : Nat) :
    (dictGet reg ch ≠ some mid →
      (_recall_and_clear_message_id reg ch mid lsi rra b rc).registry = reg ∧
      (_recall_and_clear_message_id reg ch mid lsi rra b rc).calls = 0) ∧
    (dictGet reg ch = some mid → t ≤ rra → rc t = none →
     (∀ j, j < t → isExcFail (rc j) = true) →
      dictGet ((_recall_and_clear_message_id reg ch mid lsi rra b rc).registry) ch = none) ∧
    (keysNodup reg →
      keysNodup ((_recall_and_clear_message_id reg ch mid lsi rra b rc).registry)) ∧
    (keysNodup reg → ∀ c,
      keyCount ((_recall_and_clear_message_id reg ch mid lsi rra b rc).registry) c ≤ 1) ∧
    (∀ (cfg : Config) (env : Env) (reg0 : Registry) (event : Event), keysNodup reg0 →
      keysNodup ((network_error_handler cfg env reg0 event).registry)) := by
  have hnodup : keysNodup reg →
      keysNodup ((_recall_and_clear_message_id reg ch mid lsi rra b rc).registry) := by
    intro h
    rcases recall_routine_registry_cases reg ch mid lsi rra b rc with hc | hc
    · rw [hc]; exact h
    · rw [hc]; exact keysNodup_dictPop h ch
  refine ⟨?_, ?_, hnodup, ?_, ?_⟩
  · intro h
    rw [_recall_and_clear_message_id, if_neg h]
    exact ⟨rfl, rfl⟩
  · intro hget ht hok hfail
    rw [_recall_and_clear_message_id, if_pos hget]
    rw [recallGo_success t
        (fun j hj => by rw [Nat.zero_add]; exact hfail j hj)
        (by rw [Nat.zero_add]; exact hok) (by omega) (by omega)]
    exact dictGet_dictPop reg ch
  · intro h c
    exact keyCount_le_one (hnodup h) c
  · intro cfg env reg0 event h
    exact keysNodup_handler h

/-- Claim C6: every backoff sleep the handler requests is exponential in its
index with the configured base: converted to milliseconds (the model records
the exact second-valued argument of `asyncio.sleep`, `base * 2 ^ i / 1000`),
the `i`-th retry sleep is `retry_delay_base * 2 ^ i` and the `i`-th recall
sleep is `recall_retry_delay_base * 2 ^ i`, so the first of each equals its
base. -/
theorem C6_exponential_backoff (cfg : Config) (env : Env) (reg0 : Registry)
    (event : Event) :
    ((network_error_handler cfg env reg0 event).retrySleeps.map fun d => 1000 * d) =
      ((List.range (network_error_handler cfg env reg0 event).retrySleeps.length).map
        fun i => cfg.retry_delay_base * 2 ^ i) ∧
    ((network_error_handler cfg env reg0 event).recallSleeps.map fun d => 1000 * d) =
      ((List.range (network_error_handler cfg env reg0 event).recallSleeps.length).map
        fun i => cfg.recall_retry_delay_base * 2 ^ i) := by
  constructor
  · obtain ⟨k, hk⟩ := handler_retrySleeps_shape cfg env reg0 event
    exact sleeps_ms k hk
  · obtain ⟨k, hk⟩ := handler_recallSleeps_shape cfg env reg0 event
    exact sleeps_ms k hk

/-! ### Witnesses: the claim theorems applied at concrete inputs -/

theorem C1_witness :
    ((network_error_handler wCfg
        (wEnv [NextResult.raise (Err.exc wExcNet), NextResult.raise (Err.exc wExcNet),
               NextResult.ok (some "newid")]) [("c", "m0")] ⟨"c"⟩).registry =
          dictSet [("c", "m0")] "c" "newid" ∧
     (network_error_handler wCfg
        (wEnv [NextResult.raise (Err.exc wExcNet), NextResult.raise (Err.exc wExcNet),
               NextResult.ok (some "newid")]) [("c", "m0")] ⟨"c"⟩).raised = none ∧
     (network_error_handler wCfg
        (wEnv [NextResult.raise (Err.exc wExcNet), NextResult.raise (Err.exc wExcNet),
               NextResult.ok (some "newid")]) [("c", "m0")] ⟨"c"⟩).recallInvocations = 0 ∧
     (network_error_handler wCfg
        (wEnv [NextResult.raise (Err.exc wExcNet), NextResult.raise (Err.exc wExcNet),
               NextResult.ok (some "newid")]) [("c", "m0")] ⟨"c"⟩).recallCalls = 0 ∧
     (network_error_handler wCfg
        (wEnv [NextResult.raise (Err.exc wExcNet), NextResult.raise (Err.exc wExcNet),
               NextResult.ok (some "newid")]) [("c", "m0")] ⟨"c"⟩).sendCalls = 0) ∧
    ((network_error_handler wCfg (wEnv []) [("c", "m0")] ⟨"c"⟩).recallInvocations =
        (if truthyOpt (dictGet [("c", "m0")] "c") then 1 else 0) ∧
     (network_error_handler wCfg (wEnv []) [("c", "m0")] ⟨"c"⟩).sendCalls = 1) := by
  constructor
  · exact (C1_exhaustion_boundary wCfg
      (wEnv [NextResult.raise (Err.exc wExcNet), NextResult.raise (Err.exc wExcNet),
             NextResult.ok (some "newid")]) [("c", "m0")] ⟨"c"⟩ "newid").1
      (by decide) (by decide)
  · exact (C1_exhaustion_boundary wCfg (wEnv []) [("c", "m0")] ⟨"c"⟩ "x").2
      (by decide) (by intro j; simp [wEnv])

theorem C2_witness :
    (Err.exc wExcBad = Err.cancel ∨ ∃ px, Err.exc wExcBad = Err.exc px ∧
      is_network_error px = false ∧
      ∃ j, (wEnv [NextResult.raise (Err.exc wExcBad)]).nexts j =
        NextResult.raise (Err.exc px)) ∧
    (_recall_and_clear_message_id [("c", "m0")] "c" "m0" false 2 500
      (wEnv []).recalls).raised = none ∧
    (network_error_handler wCfg (wEnv []) [("c", "m0")] ⟨"c"⟩).raised = none := by
  refine ⟨?_, ?_, ?_⟩
  · exact (C2_only_nontransient_or_cancel_escape wCfg
      (wEnv [NextResult.raise (Err.exc wExcBad)]) [("c", "m0")] ⟨"c"⟩).1
      (Err.exc wExcBad) (by decide)
  · exact (C2_only_nontransient_or_cancel_escape wCfg (wEnv []) [("c", "m0")] ⟨"c"⟩).2.1
      [("c", "m0")] "c" "m0" false 2 500 (by intro j; simp [wEnv])
  · exact (C2_only_nontransient_or_cancel_escape wCfg (wEnv []) [("c", "m0")] ⟨"c"⟩).2.2
      (by decide) (by intro j; simp [wEnv]) (by decide)

theorem C3_witness :
    (network_error_handler wCfg (wEnv [NextResult.raise (Err.exc wExcBad)])
        [("c", "m0")] ⟨"c"⟩ =
      { registry := [("c", "m0")], raised := some (Err.exc wExcBad), nextCalls := 1,
        retrySleeps := [], recallInvocations := 0, recallCalls := 0, recallSleeps := [],
        sendCalls := 0 }) ∧
    (network_error_handler wCfg
        (wEnv [NextResult.raise (Err.exc wExcNet), NextResult.raise (Err.exc wExcBad)])
        [("c", "m0")] ⟨"c"⟩ =
      { registry := [("c", "m0")], raised := some (Err.exc wExcBad), nextCalls := 2,
        retrySleeps := ((List.range' 0 0).map fun j => wCfg.retry_delay_base * 2 ^ j / 1000)
          ++ [wCfg.retry_delay_base * 2 ^ 0 / 1000],
        recallInvocations := 0, recallCalls := 0, recallSleeps := [], sendCalls := 0 }) := by
  constructor
  · exact (C3_nontransient_propagates wCfg (wEnv [NextResult.raise (Err.exc wExcBad)])
      [("c", "m0")] ⟨"c"⟩ wExcBad 0).1 (by decide) (by decide)
  · exact (C3_nontransient_propagates wCfg
      (wEnv [NextResult.raise (Err.exc wExcNet), NextResult.raise (Err.exc wExcBad)])
      [("c", "m0")] ⟨"c"⟩ wExcBad 0).2 (by decide) (by decide) (by decide) (by decide)

theorem C4_witness :
    (network_error_handler wCfg (wEnv [NextResult.raise Err.cancel])
        [("c", "m0")] ⟨"c"⟩ =
      { registry := [("c", "m0")], raised := some Err.cancel, nextCalls := 1,
        retrySleeps := [], recallInvocations := 0, recallCalls := 0, recallSleeps := [],
        sendCalls := 0 }) ∧
    (network_error_handler wCfg
        (wEnv [NextResult.raise (Err.exc wExcNet), NextResult.raise Err.cancel])
        [("c", "m0")] ⟨"c"⟩ =
      { registry := [("c", "m0")], raised := some Err.cancel, nextCalls := 2,
        retrySleeps := ((List.range' 0 0).map fun j => wCfg.retry_delay_base * 2 ^ j / 1000)
          ++ [wCfg.retry_delay_base * 2 ^ 0 / 1000],
        recallInvocations := 0, recallCalls := 0, recallSleeps := [], sendCalls := 0 }) := by
  constructor
  · exact (C4_cancellation_propagates wCfg (wEnv [NextResult.raise Err.cancel])
      [("c", "m0")] ⟨"c"⟩ 0).1 (by decide)
  · exact (C4_cancellation_propagates wCfg
      (wEnv [NextResult.raise (Err.exc wExcNet), NextResult.raise Err.cancel])
      [("c", "m0")] ⟨"c"⟩ 0).2 (by decide) (by decide) (by decide)

theorem C5_witness :
    ((_recall_and_clear_message_id [("c", "m0")] "c" "zzz" false 2 500
        (fun i => if i = 0 then some (Err.exc wExcBad) else none)).registry = [("c", "m0")] ∧
     (_recall_and_clear_message_id [("c", "m0")] "c" "zzz" false 2 500
        (fun i => if i = 0 then some (Err.exc wExcBad) else none)).calls = 0) ∧
    dictGet ((_recall_and_clear_message_id [("c", "m0")] "c" "m0" false 2 500
        (fun i => if i = 0 then some (Err.exc wExcBad) else none)).registry) "c" = none ∧
    keysNodup ((_recall_and_clear_message_id [("c", "m0")] "c" "m0" false 2 500
        (fun i => if i = 0 then some (Err.exc wExcBad) else none)).registry) ∧
    keyCount ((_recall_and_clear_message_id [("c", "m0")] "c" "m0" false 2 500
        (fun i => if i = 0 then some (Err.exc wExcBad) else none)).registry) "c" ≤ 1 ∧
    keysNodup ((network_error_handler wCfg (wEnv []) [("c", "m0")] ⟨"c"⟩).registry) := by
  refine ⟨?_, ?_, ?_, ?_, ?_⟩
  · exact (C5_recall_recheck_and_registry [("c", "m0")] "c" "zzz" false 2 500
      (fun i => if i = 0 then some (Err.exc wExcBad) else none) 1).1 (by decide)
  · exact (C5_recall_recheck_and_registry [("c", "m0")] "c" "m0" false 2 500
      (fun i => if i = 0 then some (Err.exc wExcBad) else none) 1).2.1
      (by decide) (by decide) (by decide) (by decide)
  · exact (C5_recall_recheck_and_registry [("c", "m0")] "c" "m0" false 2 500
      (fun i => if i = 0 then some (Err.exc wExcBad) else none) 1).2.2.1
      (by unfold keysNodup; decide)
  · exact (C5_recall_recheck_and_registry [("c", "m0")] "c" "m0" false 2 500
      (fun i => if i = 0 then some (Err.exc wExcBad) else none) 1).2.2.2.1
      (by unfold keysNodup; decide) "c"
  · exact (C5_recall_recheck_and_registry [("c", "m0")] "c" "m0" false 2 500
      (fun i => if i = 0 then some (Err.exc wExcBad) else none) 1).2.2.2.2
      wCfg (wEnv []) [("c", "m0")] ⟨"c"⟩ (by unfold keysNodup; decide)

end Astr

